import Mathlib

/-!
Verification of the client-side utility layer in `static/js/main.js` of the
moh-cms project. Each JavaScript function relevant to the documented
properties is shallowly embedded as a Lean definition: pure helpers become
pure functions, the browser timer / DOM / storage interactions become
explicit state passing over small state structures, and runs of the event
loop become folds over lists of calls. JavaScript `Math.floor` on
non-negative number division is `Nat` division; JS truthiness of strings and
numbers is modelled explicitly where the code relies on it.
-/

/-! ## formatTimeDifference (main.js lines 202-212)

`diff` is a millisecond difference; the claims only concern non-negative
differences, so it is a `Nat` and `Math.floor(x / k)` is `Nat` division. -/

def formatTimeDifference (diff : Nat) : String :=
  let seconds := diff / 1000
  let minutes := seconds / 60
  let hours := minutes / 60
  let days := hours / 24
  if days > 0 then toString days ++ " day" ++ (if days != 1 then "s" else "") ++ " ago"
  else if hours > 0 then toString hours ++ " hour" ++ (if hours != 1 then "s" else "") ++ " ago"
  else if minutes > 0 then toString minutes ++ " minute" ++ (if minutes != 1 then "s" else "") ++ " ago"
  else "Just now"

/-- Spec-side rendering of a count with its unit: the count, the unit name
(given with its leading space, e.g. " day"), an "s" exactly when the count is
not 1, then " ago". -/
def unitPhrase (n : Nat) (unit : String) : String :=
  toString n ++ unit ++ (if n = 1 then "" else "s") ++ " ago"

lemma formatTimeDifference_days (diff : Nat) (h : 86400000 ≤ diff) :
    formatTimeDifference diff = unitPhrase (diff / 86400000) " day" := by
  have hd : diff / 1000 / 60 / 60 / 24 = diff / 86400000 := by omega
  have hpos : diff / 86400000 > 0 := by omega
  simp only [formatTimeDifference]
  rw [hd, if_pos hpos]
  simp only [unitPhrase]
  by_cases he : diff / 86400000 = 1 <;> simp [he, bne_iff_ne]

lemma formatTimeDifference_hours (diff : Nat) (h1 : 3600000 ≤ diff)
    (h2 : diff < 86400000) :
    formatTimeDifference diff = unitPhrase (diff / 3600000) " hour" := by
  have hd : diff / 1000 / 60 / 60 / 24 = 0 := by omega
  have hh : diff / 1000 / 60 / 60 = diff / 3600000 := by omega
  have hpos : diff / 3600000 > 0 := by omega
  simp only [formatTimeDifference]
  rw [hd, if_neg (by omega : ¬ ((0 : Nat) > 0)), hh, if_pos hpos]
  simp only [unitPhrase]
  by_cases he : diff / 3600000 = 1 <;> simp [he, bne_iff_ne]

lemma formatTimeDifference_minutes (diff : Nat) (h1 : 60000 ≤ diff)
    (h2 : diff < 3600000) :
    formatTimeDifference diff = unitPhrase (diff / 60000) " minute" := by
  have hd : diff / 1000 / 60 / 60 / 24 = 0 := by omega
  have hh : diff / 1000 / 60 / 60 = 0 := by omega
  have hm : diff / 1000 / 60 = diff / 60000 := by omega
  have hpos : diff / 60000 > 0 := by omega
  simp only [formatTimeDifference]
  rw [hd, if_neg (by omega : ¬ ((0 : Nat) > 0)), hh,
    if_neg (by omega : ¬ ((0 : Nat) > 0)), hm, if_pos hpos]
  simp only [unitPhrase]
  by_cases he : diff / 60000 = 1 <;> simp [he, bne_iff_ne]

lemma formatTimeDifference_justNow (diff : Nat) (h : diff < 60000) :
    formatTimeDifference diff = "Just now" := by
  have hd : diff / 1000 / 60 / 60 / 24 = 0 := by omega
  have hh : diff / 1000 / 60 / 60 = 0 := by omega
  have hm : diff / 1000 / 60 = 0 := by omega
  simp [formatTimeDifference, hd, hh, hm]

/-- Claim C1: `formatTimeDifference` yields the correct unit at the boundary
values (0 ms and 59 s give "Just now", 60 s gives "1 minute ago", 3600 s
gives "1 hour ago", 86400 s gives "1 day ago"), and in general the largest
applicable unit (days, then hours, then minutes) is chosen with its total
count, pluralized with "s" exactly when the count is not 1. -/
theorem formatTimeDifference_boundaries_and_units :
    formatTimeDifference 0 = "Just now" ∧
    formatTimeDifference 59000 = "Just now" ∧
    formatTimeDifference 60000 = "1 minute ago" ∧
    formatTimeDifference 3600000 = "1 hour ago" ∧
    formatTimeDifference 86400000 = "1 day ago" ∧
    ∀ diff : Nat,
      (diff < 60000 → formatTimeDifference diff = "Just now") ∧
      (60000 ≤ diff → diff < 3600000 →
        formatTimeDifference diff = unitPhrase (diff / 60000) " minute") ∧
      (3600000 ≤ diff → diff < 86400000 →
        formatTimeDifference diff = unitPhrase (diff / 3600000) " hour") ∧
      (86400000 ≤ diff →
        formatTimeDifference diff = unitPhrase (diff / 86400000) " day") := by
  refine ⟨by decide, by decide, by decide, by decide, by decide, fun diff => ⟨?_, ?_, ?_, ?_⟩⟩
  · exact formatTimeDifference_justNow diff
  · exact formatTimeDifference_minutes diff
  · exact formatTimeDifference_hours diff
  · exact formatTimeDifference_days diff

/-- Witness for C1: the general clauses evaluated at the concrete inputs
120000 ms (2 minutes) and 200000000 ms (2 days). -/
theorem formatTimeDifference_boundaries_and_units_witness :
    formatTimeDifference 120000 = "2 minutes ago" ∧
    formatTimeDifference 200000000 = "2 days ago" := by
  have h1 := (formatTimeDifference_boundaries_and_units.2.2.2.2.2 120000).2.1
    (by decide) (by decide)
  have h2 := (formatTimeDifference_boundaries_and_units.2.2.2.2.2 200000000).2.2.2
    (by decide)
  exact ⟨h1.trans (by decide), h2.trans (by decide)⟩

/-! ## Theme handling (main.js lines 234-256)

State of the browser pieces the theme functions touch: the value stored in
local storage under the fixed key "cms-theme" (`none` when the key is
absent, as `localStorage.getItem` then returns `null`), and the root
element's `data-theme` attribute (`none` when the attribute is absent, as
`getAttribute` then returns `null`). -/

structure ThemeState where
  storage : Option String
  attr : Option String
deriving DecidableEq, Repr

/-- `setTheme` (lines 244-247): sets the `data-theme` attribute and stores
the same value under "cms-theme". -/
def setTheme (theme : String) (_s : ThemeState) : ThemeState :=
  { attr := some theme, storage := some theme }

/-- `initializeTheme` (lines 234-239): reads the saved theme and applies it
via `setTheme` when it is truthy (present and non-empty). -/
def initializeTheme (s : ThemeState) : ThemeState :=
  match s.storage with
  | some savedTheme => if savedTheme = "" then s else setTheme savedTheme s
  | none => s

/-- `toggleTheme` (lines 252-256): reads the current `data-theme` attribute,
picks "light" when it is exactly "dark" and "dark" otherwise, and applies
`setTheme`. -/
def toggleTheme (s : ThemeState) : ThemeState :=
  let currentTheme := s.attr
  let newTheme := if currentTheme = some "dark" then "light" else "dark"
  setTheme newTheme s

/-- JS truthiness of the `getItem` result: `null` and the empty string are
falsy, every other string is truthy. -/
def jsTruthyStr : Option String → Bool
  | none => false
  | some s => s ≠ ""

/-- Counterexample to C4: `setTheme` accepts any string, so calling it with
"banana" stores a value that is neither "light" nor "dark" under
"cms-theme"; the claimed invariant fails for this argument. -/
theorem setTheme_not_light_dark_cex :
    ¬ (((setTheme "banana" ⟨none, none⟩).storage = some "light" ∨
        (setTheme "banana" ⟨none, none⟩).storage = some "dark") ∧
       (setTheme "banana" ⟨none, none⟩).attr =
         (setTheme "banana" ⟨none, none⟩).storage) := by
  decide

/-- Claim C4 (amended): after `setTheme v` the attribute and the stored
value both equal `v` verbatim (so they are "light"/"dark" only when the
argument is); after `toggleTheme` the attribute mirrors storage and the
value is "light" or "dark"; `initializeTheme` establishes the mirror with
the saved value when that value is truthy, and changes nothing at all when
the saved value is absent or empty. -/
theorem theme_invariants_amended :
    ∀ (s : ThemeState) (v : String),
      ((setTheme v s).attr = some v ∧ (setTheme v s).storage = some v) ∧
      ((toggleTheme s).attr = (toggleTheme s).storage ∧
        ((toggleTheme s).storage = some "light" ∨
         (toggleTheme s).storage = some "dark")) ∧
      (jsTruthyStr s.storage = true →
        (initializeTheme s).attr = (initializeTheme s).storage ∧
        (initializeTheme s).storage = s.storage) ∧
      (jsTruthyStr s.storage = false → initializeTheme s = s) := by
  intro s v
  refine ⟨⟨rfl, rfl⟩, ?_, ?_, ?_⟩
  · by_cases h : s.attr = some "dark" <;>
      simp [toggleTheme, setTheme, h]
  · intro ht
    match hs : s.storage with
    | none => simp [hs, jsTruthyStr] at ht
    | some t =>
      simp [jsTruthyStr, hs] at ht
      simp [initializeTheme, hs, ht, setTheme]
  · intro ht
    match hs : s.storage with
    | none => simp [initializeTheme, hs]
    | some t =>
      simp [jsTruthyStr, hs] at ht
      simp [initializeTheme, hs, ht]

/-- Witness for C4 (amended): the theorem applied at a concrete state with a
truthy saved theme and at one with an empty saved theme. -/
theorem theme_invariants_amended_witness :
    ((initializeTheme ⟨some "dark", none⟩).attr =
      (initializeTheme ⟨some "dark", none⟩).storage ∧
     (initializeTheme ⟨some "dark", none⟩).storage = some "dark") ∧
    initializeTheme ⟨some "", some "x"⟩ = ⟨some "", some "x"⟩ := by
  refine ⟨(theme_invariants_amended ⟨some "dark", none⟩ "v").2.2.1 (by decide), ?_⟩
  exact (theme_invariants_amended ⟨some "", some "x"⟩ "v").2.2.2 (by decide)

/-- Claim C5: for a current `data-theme` value in {"light", "dark"},
`toggleTheme` sets the opposite value on both the attribute and the stored
"cms-theme" value, and applying `toggleTheme` twice restores the original
attribute value (and leaves storage equal to it). -/
theorem toggleTheme_flips_and_involutes :
    ∀ s : ThemeState,
      (s.attr = some "light" →
        (toggleTheme s).attr = some "dark" ∧
        (toggleTheme s).storage = some "dark") ∧
      (s.attr = some "dark" →
        (toggleTheme s).attr = some "light" ∧
        (toggleTheme s).storage = some "light") ∧
      (s.attr = some "light" ∨ s.attr = some "dark" →
        (toggleTheme (toggleTheme s)).attr = s.attr ∧
        (toggleTheme (toggleTheme s)).storage = s.attr) := by
  intro s
  refine ⟨?_, ?_, ?_⟩
  · intro h; simp [toggleTheme, setTheme, h]
  · intro h; simp [toggleTheme, setTheme, h]
  · rintro (h | h) <;> simp [toggleTheme, setTheme, h]

/-- Witness for C5: toggling from a concrete "light" state flips to "dark"
and toggling twice restores "light". -/
theorem toggleTheme_flips_and_involutes_witness :
    ((toggleTheme ⟨some "light", some "light"⟩).attr = some "dark" ∧
     (toggleTheme ⟨some "light", some "light"⟩).storage = some "dark") ∧
    (toggleTheme (toggleTheme ⟨some "light", some "light"⟩)).attr =
      some "light" := by
  refine ⟨(toggleTheme_flips_and_involutes ⟨some "light", some "light"⟩).1 (by decide), ?_⟩
  exact ((toggleTheme_flips_and_involutes ⟨some "light", some "light"⟩).2.2
    (Or.inl (by decide))).1

/-! ## Timer handle tracking (main.js lines 7-8, 41-53, 261-283)

The module has two globals, `autoRefreshInterval` and `notificationTimeout`
(lines 7-8). `showNotification` clears the stored `notificationTimeout`
handle (when set) before creating a new timeout and storing its handle.
`setupAutoRefresh` calls `setInterval` once per element carrying
`data-auto-refresh` and discards the returned handle: the source never
assigns or clears `autoRefreshInterval`. This model tracks the two global
variables and the sets of live (created, not cleared) timeouts/intervals,
with handles issued as consecutive ids. -/

structure TimerState where
  nextId : Nat
  notificationTimeout : Option Nat
  activeTimeouts : List Nat
  autoRefreshInterval : Option Nat
  activeIntervals : List Nat
deriving DecidableEq, Repr

def initialTimerState : TimerState :=
  { nextId := 0, notificationTimeout := none, activeTimeouts := [],
    autoRefreshInterval := none, activeIntervals := [] }

/-- Timer effects of `showNotification` (lines 261-283): clear the stored
handle if present, create a new timeout and store its handle. -/
def showNotificationTimers (s : TimerState) : TimerState :=
  let s1 := match s.notificationTimeout with
    | some h => { s with activeTimeouts := s.activeTimeouts.erase h }
    | none => s
  { s1 with
    notificationTimeout := some s1.nextId
    activeTimeouts := s1.activeTimeouts ++ [s1.nextId]
    nextId := s1.nextId + 1 }

/-- Timer effects of `setupAutoRefresh` (lines 41-53) on a page with
`numElements` elements carrying `data-auto-refresh`: one `setInterval` per
element, with the returned handle discarded; the global
`autoRefreshInterval` is never read, assigned or cleared. -/
def setupAutoRefreshTimers : Nat → TimerState → TimerState
  | 0, s => s
  | n + 1, s =>
      setupAutoRefreshTimers n
        { s with activeIntervals := s.activeIntervals ++ [s.nextId], nextId := s.nextId + 1 }

inductive UiOp where
  | note
  | refresh (numElements : Nat)
deriving DecidableEq, Repr

def runUiOps : List UiOp → TimerState → TimerState
  | [], s => s
  | UiOp.note :: rest, s => runUiOps rest (showNotificationTimers s)
  | UiOp.refresh n :: rest, s => runUiOps rest (setupAutoRefreshTimers n s)

/-- Total number of intervals the operations create. -/
def intervalCount : List UiOp → Nat
  | [] => 0
  | UiOp.note :: rest => intervalCount rest
  | UiOp.refresh n :: rest => n + intervalCount rest

/-- The stored notification handle tracks exactly the live timeout. -/
def TimerTracked (s : TimerState) : Prop :=
  match s.notificationTimeout with
  | none => s.activeTimeouts = []
  | some h => s.activeTimeouts = [h]

lemma setupAutoRefreshTimers_fields : ∀ (n : Nat) (s : TimerState),
    (setupAutoRefreshTimers n s).notificationTimeout = s.notificationTimeout ∧
    (setupAutoRefreshTimers n s).activeTimeouts = s.activeTimeouts ∧
    (setupAutoRefreshTimers n s).autoRefreshInterval = s.autoRefreshInterval ∧
    (setupAutoRefreshTimers n s).activeIntervals.length =
      s.activeIntervals.length + n := by
  intro n
  induction n with
  | zero => intro s; simp [setupAutoRefreshTimers]
  | succ m ih =>
    intro s
    have h := ih { s with activeIntervals := s.activeIntervals ++ [s.nextId], nextId := s.nextId + 1 }
    simp only [setupAutoRefreshTimers]
    refine ⟨h.1, h.2.1, h.2.2.1, ?_⟩
    rw [h.2.2.2]
    simp
    omega

lemma showNotificationTimers_fields (s : TimerState) (ht : TimerTracked s) :
    TimerTracked (showNotificationTimers s) ∧
    (showNotificationTimers s).activeTimeouts.length = 1 ∧
    (showNotificationTimers s).autoRefreshInterval = s.autoRefreshInterval ∧
    (showNotificationTimers s).activeIntervals = s.activeIntervals := by
  unfold TimerTracked at ht
  match hn : s.notificationTimeout with
  | none =>
    rw [hn] at ht
    simp [showNotificationTimers, hn, ht, TimerTracked]
  | some h =>
    rw [hn] at ht
    simp [showNotificationTimers, hn, ht, TimerTracked, List.erase]

lemma runUiOps_spec : ∀ (ops : List UiOp) (s : TimerState), TimerTracked s →
    TimerTracked (runUiOps ops s) ∧
    (runUiOps ops s).autoRefreshInterval = s.autoRefreshInterval ∧
    (runUiOps ops s).activeIntervals.length =
      s.activeIntervals.length + intervalCount ops := by
  intro ops
  induction ops with
  | nil => intro s hs; simpa [runUiOps, intervalCount] using hs
  | cons op rest ih =>
    intro s hs
    cases op with
    | note =>
      have hstep := showNotificationTimers_fields s hs
      have h := ih (showNotificationTimers s) hstep.1
      refine ⟨h.1, ?_, ?_⟩
      · rw [show runUiOps (UiOp.note :: rest) s
            = runUiOps rest (showNotificationTimers s) from rfl]
        rw [h.2.1, hstep.2.2.1]
      · rw [show runUiOps (UiOp.note :: rest) s
            = runUiOps rest (showNotificationTimers s) from rfl]
        rw [h.2.2, hstep.2.2.2, intervalCount]
    | refresh n =>
      have hstep := setupAutoRefreshTimers_fields n s
      have htr : TimerTracked (setupAutoRefreshTimers n s) := by
        unfold TimerTracked
        rw [hstep.1, hstep.2.1]
        exact hs
      have h := ih (setupAutoRefreshTimers n s) htr
      refine ⟨h.1, ?_, ?_⟩
      · rw [show runUiOps (UiOp.refresh n :: rest) s
            = runUiOps rest (setupAutoRefreshTimers n s) from rfl]
        rw [h.2.1, hstep.2.2.1]
      · rw [show runUiOps (UiOp.refresh n :: rest) s
            = runUiOps rest (setupAutoRefreshTimers n s) from rfl]
        rw [h.2.2, hstep.2.2.2, intervalCount]
        omega

/-- Counterexample to C2: two successive `setupAutoRefresh` passes over a
page with one `data-auto-refresh` element create a second interval without
clearing the first (both remain live), and the `autoRefreshInterval` global
is still unset: `setupAutoRefresh` does not clear a previously stored
handle before creating a new one, and more than one interval is live. -/
theorem setupAutoRefresh_no_clear_cex :
    (runUiOps [UiOp.refresh 1, UiOp.refresh 1] initialTimerState).activeIntervals
      = [0, 1] ∧
    (runUiOps [UiOp.refresh 1, UiOp.refresh 1] initialTimerState).autoRefreshInterval
      = none ∧
    ¬ ((runUiOps [UiOp.refresh 1, UiOp.refresh 1]
        initialTimerState).activeIntervals.length ≤ 1) := by
  decide

/-- Claim C2 (amended): `showNotification` does clear the previously stored
notification-timeout handle before creating a new one, so the stored handle
always tracks the single live notification timeout (at most one live
timeout); `setupAutoRefresh`, by contrast, never stores or clears an
interval handle: `autoRefreshInterval` stays unassigned and the live
intervals accumulate, one per refresh element per call. -/
theorem timer_handles_amended : ∀ ops : List UiOp,
    TimerTracked (runUiOps ops initialTimerState) ∧
    (runUiOps ops initialTimerState).activeTimeouts.length ≤ 1 ∧
    (runUiOps ops initialTimerState).autoRefreshInterval = none ∧
    (runUiOps ops initialTimerState).activeIntervals.length =
      intervalCount ops := by
  intro ops
  have h := runUiOps_spec ops initialTimerState (by simp [TimerTracked, initialTimerState])
  refine ⟨h.1, ?_, ?_, ?_⟩
  · have := h.1
    unfold TimerTracked at this
    match hn : (runUiOps ops initialTimerState).notificationTimeout with
    | none => rw [hn] at this; simp [this]
    | some k => rw [hn] at this; simp [this]
  · rw [h.2.1]; rfl
  · rw [h.2.2]; simp [initialTimerState]

/-! ## Notification lifecycle (main.js lines 261-283)

`showNotification(message, type, duration)` appends a new alert element to
the document body and schedules its removal `duration` ms later (default
3000). Before scheduling it calls `clearTimeout` on the stored
`notificationTimeout` handle, cancelling the pending removal of the
previous notification WITHOUT removing that element. A run is a list of
calls `(time, duration)` processed in order; between calls a scheduled
removal fires as soon as its time is reached, and after the last call the
event loop runs the remaining timer. -/

structure NoteState where
  inDoc : List (Nat × Bool)
  pending : Option (Nat × Nat)
  nextId : Nat
deriving DecidableEq, Repr

/-- The removal callback of notification `i`: `notification.remove()`. -/
def dismiss (i : Nat) (l : List (Nat × Bool)) : List (Nat × Bool) :=
  l.map (fun p => if p.1 = i then (p.1, false) else p)

/-- Run the pending removal timer if its scheduled time has been reached. -/
def fireDue (t : Nat) (s : NoteState) : NoteState :=
  match s.pending with
  | some (i, f) =>
      if f ≤ t then { s with pending := none, inDoc := dismiss i s.inDoc } else s
  | none => s

/-- A `showNotification` call at absolute time `t` with timeout `dur`
(3000 when the caller omits the argument): any removal already due has
fired; the stored timeout is cleared (overwritten, its removal cancelled),
the new element is appended, and its removal is scheduled at `t + dur`. -/
def showNote (t dur : Nat) (s : NoteState) : NoteState :=
  let s1 := fireDue t s
  { inDoc := s1.inDoc ++ [(s1.nextId, true)]
    pending := some (s1.nextId, t + dur)
    nextId := s1.nextId + 1 }

/-- After the last call the event loop eventually runs the remaining
scheduled removal. -/
def finishNotes (s : NoteState) : NoteState :=
  match s.pending with
  | some (i, _) => { s with pending := none, inDoc := dismiss i s.inDoc }
  | none => s

def runNotes (calls : List (Nat × Nat)) : NoteState :=
  finishNotes (calls.foldl (fun s c => showNote c.1 c.2 s)
    { inDoc := [], pending := none, nextId := 0 })

/-- Spec-side fate of each notification, numbering from `n`: a notification
stays in the document (flag `true`) exactly when the next call arrives
strictly before its scheduled removal time; the last notification is always
removed. -/
def noteFates : List (Nat × Nat) → Nat → List (Nat × Bool)
  | [], _ => []
  | (t, d) :: rest, n =>
      (n, match rest with
          | [] => false
          | (t2, _) :: _ => decide (t2 < t + d)) :: noteFates rest (n + 1)

lemma dismiss_of_not_mem (i : Nat) (l : List (Nat × Bool))
    (h : ∀ p ∈ l, p.1 ≠ i) : dismiss i l = l := by
  induction l with
  | nil => rfl
  | cons p rest ih =>
    have h1 : p.1 ≠ i := h p (by simp)
    have h2 : ∀ q ∈ rest, q.1 ≠ i := fun q hq => h q (by simp [hq])
    show dismiss i (p :: rest) = p :: rest
    unfold dismiss
    simp only [List.map_cons]
    rw [if_neg h1]
    have h3 := ih h2
    unfold dismiss at h3
    rw [h3]

lemma dismiss_append (i : Nat) (b : Bool) (pre : List (Nat × Bool))
    (h : ∀ p ∈ pre, p.1 ≠ i) :
    dismiss i (pre ++ [(i, b)]) = pre ++ [(i, false)] := by
  unfold dismiss
  rw [List.map_append]
  have h1 := dismiss_of_not_mem i pre h
  unfold dismiss at h1
  rw [h1]
  simp

lemma runNotes_from : ∀ (rest : List (Nat × Nat)) (pre : List (Nat × Bool))
    (n t d : Nat), (∀ p ∈ pre, p.1 < n) →
    (finishNotes (rest.foldl (fun s c => showNote c.1 c.2 s)
      ⟨pre ++ [(n, true)], some (n, t + d), n + 1⟩)).inDoc
    = pre ++ noteFates ((t, d) :: rest) n := by
  intro rest
  induction rest with
  | nil =>
    intro pre n t d hpre
    have hne : ∀ p ∈ pre, p.1 ≠ n := fun p hp => Nat.ne_of_lt (hpre p hp)
    simp only [List.foldl_nil, finishNotes, noteFates]
    rw [dismiss_append n true pre hne]
  | cons c rest ih =>
    intro pre n t d hpre
    obtain ⟨t2, d2⟩ := c
    have hne : ∀ p ∈ pre, p.1 ≠ n := fun p hp => Nat.ne_of_lt (hpre p hp)
    have hshow : showNote t2 d2 ⟨pre ++ [(n, true)], some (n, t + d), n + 1⟩
        = ⟨(pre ++ [(n, decide (t2 < t + d))]) ++ [(n + 1, true)],
           some (n + 1, t2 + d2), n + 2⟩ := by
      by_cases hc : t + d ≤ t2
      · have hb : decide (t2 < t + d) = false := by simp; omega
        simp only [showNote, fireDue, if_pos hc, hb]
        rw [dismiss_append n true pre hne]
      · have hb : decide (t2 < t + d) = true := by simp; omega
        simp only [showNote, fireDue, if_neg hc, hb]
    have hpre2 : ∀ p ∈ pre ++ [(n, decide (t2 < t + d))], p.1 < n + 1 := by
      intro p hp
      rcases List.mem_append.mp hp with h1 | h1
      · exact Nat.lt_succ_of_lt (hpre p h1)
      · have he : p = (n, decide (t2 < t + d)) := by simpa using h1
        subst he
        show n < n + 1
        omega
    have hrec := ih (pre ++ [(n, decide (t2 < t + d))]) (n + 1) t2 d2 hpre2
    simp only [List.foldl_cons]
    rw [hshow, hrec]
    simp only [noteFates, List.append_assoc, List.singleton_append]

/-- Claim C3 (amended): a notification created by a `showNotification` call
is auto-removed from the document after its timeout exactly when no later
call arrives strictly before its scheduled removal time; a later call made
while the dismissal is still pending cancels the removal and the earlier
notification stays in the document. The final notification of a run is
always removed. -/
theorem notification_lifecycle_amended :
    ∀ calls : List (Nat × Nat), (runNotes calls).inDoc = noteFates calls 0 := by
  intro calls
  match calls with
  | [] => rfl
  | (t, d) :: rest =>
    show (finishNotes (List.foldl (fun s c => showNote c.1 c.2 s)
      (showNote t d { inDoc := [], pending := none, nextId := 0 }) rest)).inDoc
        = noteFates ((t, d) :: rest) 0
    have h0 : showNote t d { inDoc := [], pending := none, nextId := 0 }
        = ⟨[] ++ [(0, true)], some (0, t + d), 0 + 1⟩ := by
      simp [showNote, fireDue]
    rw [h0]
    have := runNotes_from rest [] 0 t d (by simp)
    simpa using this

/-- Counterexample to C3: with calls at 0 ms and 1000 ms (each with the
default 3000 ms timeout), the second call cancels the first notification's
pending removal, so the first alert element is never removed from the
document. -/
theorem notification_not_dismissed_cex :
    (0, true) ∈ (runNotes [(0, 3000), (1000, 3000)]).inDoc ∧
    ¬ (∀ p ∈ (runNotes [(0, 3000), (1000, 3000)]).inDoc, p.2 = false) := by
  decide

/-! ## debounce (main.js lines 301-319)

`debounce(func, wait, immediate)` with a falsy `immediate` (the case the
claim is about): each call clears the stored timeout and schedules `later`
`wait` ms ahead; `later` invokes `func` with the arguments of the call that
scheduled it. A run is a list of calls `(time, args)` in order; a scheduled
invocation fires as soon as its time is reached, and after the last call
the event loop runs the remaining timer. `fired` collects the invocations
as `(invocation time, args)`. -/

structure DebState (α : Type) where
  pending : Option (Nat × α)
  fired : List (Nat × α)
deriving DecidableEq, Repr

def debCall {α : Type} (wait t : Nat) (a : α) (s : DebState α) : DebState α :=
  let s1 : DebState α := match s.pending with
    | some (f, b) =>
        if f ≤ t then { pending := none, fired := s.fired ++ [(f, b)] } else s
    | none => s
  { pending := some (t + wait, a), fired := s1.fired }

def debFinish {α : Type} (s : DebState α) : DebState α :=
  match s.pending with
  | some (f, b) => { pending := none, fired := s.fired ++ [(f, b)] }
  | none => s

def debounceRun {α : Type} (wait : Nat) (calls : List (Nat × α)) : List (Nat × α) :=
  (debFinish (calls.foldl (fun s c => debCall wait c.1 c.2 s) ⟨none, []⟩)).fired

lemma debCall_fold {α : Type} (wait : Nat) :
    ∀ (cs : List (Nat × α)) (t : Nat) (a : α) (fired0 : List (Nat × α))
      (c : Nat × α),
      ((t, a) :: cs).getLast? = some c →
      List.Chain' (fun p q => p.1 ≤ q.1 ∧ q.1 < p.1 + wait) ((t, a) :: cs) →
      cs.foldl (fun s c => debCall wait c.1 c.2 s)
        ⟨some (t + wait, a), fired0⟩ = ⟨some (c.1 + wait, c.2), fired0⟩ := by
  intro cs
  induction cs with
  | nil =>
    intro t a fired0 c hlast _
    simp at hlast
    simp [List.foldl_nil, ← hlast]
  | cons c2 cs' ih =>
    intro t a fired0 c hlast hchain
    obtain ⟨t2, a2⟩ := c2
    rw [List.chain'_cons] at hchain
    have hgap : t ≤ t2 ∧ t2 < t + wait := hchain.1
    have hstep : debCall wait t2 a2 ⟨some (t + wait, a), fired0⟩
        = ⟨some (t2 + wait, a2), fired0⟩ := by
      simp only [debCall]
      rw [if_neg (by omega : ¬ (t + wait ≤ t2))]
    rw [List.foldl_cons, hstep]
    exact ih t2 a2 fired0 c (by rw [← hlast, List.getLast?_cons_cons]) hchain.2

/-- Claim C6: for a burst of calls to a debounced wrapper (falsy
`immediate`) in which each call arrives strictly within `wait` ms of the
previous one, the wrapped function is invoked exactly once, `wait` ms after
the last call of the burst, with the arguments of that last call. -/
theorem debounce_burst {α : Type} (wait : Nat) (calls : List (Nat × α))
    (c : Nat × α) (hlast : calls.getLast? = some c)
    (hchain : List.Chain' (fun p q => p.1 ≤ q.1 ∧ q.1 < p.1 + wait) calls) :
    debounceRun wait calls = [(c.1 + wait, c.2)] := by
  match calls with
  | [] => simp at hlast
  | (t, a) :: cs =>
    have h0 : debCall wait t a (⟨none, []⟩ : DebState α)
        = ⟨some (t + wait, a), []⟩ := by
      simp [debCall]
    show (debFinish (List.foldl (fun s c => debCall wait c.1 c.2 s)
      (debCall wait t a ⟨none, []⟩) cs)).fired = [(c.1 + wait, c.2)]
    rw [h0, debCall_fold wait cs t a [] c hlast hchain]
    simp [debFinish]

/-- Witness for C6: a concrete burst of three calls 50 and 70 ms apart with
`wait` 100 ms produces exactly one invocation, at 220 ms (100 ms after the
last call) with the last call's argument. -/
theorem debounce_burst_witness :
    debounceRun 100 [(0, 10), (50, 20), (120, 30)] = [(220, 30)] :=
  debounce_burst 100 [(0, 10), (50, 20), (120, 30)] (120, 30)
    (by decide) (by simp [List.chain'_cons])

/-! ## throttle (main.js lines 324-335)

`throttle(func, limit)`: a call while `inThrottle` is unset invokes `func`
immediately (synchronously, at the call's own time), sets `inThrottle` and
schedules its reset `limit` ms later; a call while `inThrottle` is set is
dropped. The flag state is modelled as the absolute reset time (`none` when
`inThrottle` is unset); a due reset is applied when the next call arrives.
`fired` collects invocation times in order. -/

structure ThrState where
  resetAt : Option Nat
  fired : List Nat
deriving DecidableEq, Repr

def throttleCall (limit t : Nat) (s : ThrState) : ThrState :=
  let s1 : ThrState := match s.resetAt with
    | some r => if r ≤ t then { s with resetAt := none } else s
    | none => s
  match s1.resetAt with
  | none => { resetAt := some (t + limit), fired := s1.fired ++ [t] }
  | some _ => s1

def throttleRun (limit : Nat) (calls : List Nat) : List Nat :=
  (calls.foldl (fun s t => throttleCall limit t s) ⟨none, []⟩).fired

/-- Invariant carried through a throttled run: `seen` are the calls
processed so far, all at times at most `T`. Invocations are at least
`limit` apart, each is the time of some processed call, the first
invocation is the first call, the stored reset time is `limit` past the
last invocation, and every processed call either fired or fell inside the
`limit` window of an earlier invocation. -/
def ThrInv (limit T : Nat) (seen : List Nat) (s : ThrState) : Prop :=
  List.Chain' (fun a b => a + limit ≤ b) s.fired ∧
  (∀ u ∈ s.fired, u ∈ seen) ∧
  (∀ u ∈ s.fired, u ≤ T) ∧
  (s.resetAt = none → s.fired = []) ∧
  (∀ r, s.resetAt = some r → ∃ l, s.fired.getLast? = some l ∧ r = l + limit) ∧
  (seen ≠ [] → s.fired.head? = seen.head?) ∧
  (∀ u ∈ seen, u ∈ s.fired ∨ ∃ v ∈ s.fired, v ≤ u ∧ u < v + limit)

lemma throttleCall_inv (limit t T : Nat) (seen : List Nat) (s : ThrState)
    (hT : T ≤ t) (h : ThrInv limit T seen s) :
    ThrInv limit t (seen ++ [t]) (throttleCall limit t s) := by
  obtain ⟨h1, h2, h3, h4, h5, h6, h7⟩ := h
  match hr : s.resetAt with
  | none =>
    have hf : s.fired = [] := h4 hr
    have hseen : seen = [] := by
      by_contra hne
      obtain ⟨c, hc⟩ := List.exists_mem_of_ne_nil seen hne
      rcases h7 c hc with hin | ⟨v, hv, _⟩
      · rw [hf] at hin; simp at hin
      · rw [hf] at hv; simp at hv
    have hcall : throttleCall limit t s = ⟨some (t + limit), s.fired ++ [t]⟩ := by
      simp [throttleCall, hr]
    rw [hcall]
    subst hseen
    rw [hf]
    refine ⟨by simp, by simp, by simp, by simp, ?_, by simp, by simp⟩
    intro r hrr
    simp at hrr
    exact ⟨t, by simp, by omega⟩
  | some r =>
    obtain ⟨l, hl, hrl⟩ := h5 r hr
    have hfne : s.fired ≠ [] := by
      intro hnil; rw [hnil] at hl; simp at hl
    have hlmem : l ∈ s.fired := List.mem_of_mem_getLast? hl
    have hseen_ne : seen ≠ [] := by
      intro hs0; have := h2 l hlmem; rw [hs0] at this; simp at this
    have hlT : l ≤ T := h3 l hlmem
    by_cases hle : r ≤ t
    · have hcall : throttleCall limit t s = ⟨some (t + limit), s.fired ++ [t]⟩ := by
        simp [throttleCall, hr, hle]
      rw [hcall]
      refine ⟨?_, ?_, ?_, by simp, ?_, ?_, ?_⟩
      · rw [List.chain'_append]
        refine ⟨h1, by simp, ?_⟩
        intro x hx y hy
        rw [hl] at hx
        simp at hx hy
        omega
      · intro u hu
        rcases List.mem_append.mp hu with hu1 | hu1
        · exact List.mem_append.mpr (Or.inl (h2 u hu1))
        · simp at hu1; simp [hu1]
      · intro u hu
        rcases List.mem_append.mp hu with hu1 | hu1
        · exact le_trans (h3 u hu1) hT
        · simp at hu1; omega
      · intro r2 hr2
        simp at hr2
        exact ⟨t, by simp [List.getLast?_concat], by omega⟩
      · intro _
        rw [List.head?_append_of_ne_nil _ hfne,
          List.head?_append_of_ne_nil _ hseen_ne]
        exact h6 hseen_ne
      · intro u hu
        rcases List.mem_append.mp hu with hu1 | hu1
        · rcases h7 u hu1 with hin | ⟨v, hv, hw⟩
          · exact Or.inl (List.mem_append.mpr (Or.inl hin))
          · exact Or.inr ⟨v, List.mem_append.mpr (Or.inl hv), hw⟩
        · simp at hu1
          exact Or.inl (List.mem_append.mpr (Or.inr (by simp [hu1])))
    · have hcall : throttleCall limit t s = s := by
        simp [throttleCall, hr, hle]
      rw [hcall]
      refine ⟨h1, ?_, ?_, ?_, ?_, ?_, ?_⟩
      · intro u hu
        exact List.mem_append.mpr (Or.inl (h2 u hu))
      · intro u hu
        exact le_trans (h3 u hu) hT
      · intro hnone; rw [hnone] at hr; cases hr
      · intro r2 hr2
        rw [hr2] at hr
        exact ⟨l, hl, by cases hr; exact hrl⟩
      · intro _
        rw [List.head?_append_of_ne_nil _ hseen_ne]
        exact h6 hseen_ne
      · intro u hu
        rcases List.mem_append.mp hu with hu1 | hu1
        · exact h7 u hu1
        · simp at hu1
          refine Or.inr ⟨l, hlmem, by omega, by omega⟩

lemma throttleRun_fold (limit : Nat) :
    ∀ (calls : List Nat) (T : Nat) (seen : List Nat) (s : ThrState),
      ThrInv limit T seen s → List.Pairwise (· ≤ ·) calls →
      (∀ u ∈ calls, T ≤ u) →
      ∃ T2, ThrInv limit T2 (seen ++ calls)
        (calls.foldl (fun st t => throttleCall limit t st) s) := by
  intro calls
  induction calls with
  | nil => intro T seen s h _ _; exact ⟨T, by simpa using h⟩
  | cons t rest ih =>
    intro T seen s h hpw hge
    rw [List.pairwise_cons] at hpw
    have hstep := throttleCall_inv limit t T seen s (hge t (by simp)) h
    have hrec := ih t (seen ++ [t]) (throttleCall limit t s) hstep hpw.2
      (fun u hu => hpw.1 u hu)
    obtain ⟨T2, hT2⟩ := hrec
    exact ⟨T2, by simpa [List.append_assoc] using hT2⟩

/-- Claim C7: over any nondecreasing sequence of call times, a throttled
wrapper invokes the wrapped function at most once per `limit` window:
successive invocation times are at least `limit` apart, every invocation
happens synchronously at the time of one of the calls, the first call of
the run is invoked immediately, and every call is either itself an
invocation or falls within the `limit` window of an earlier invocation
(the first call at or past the window end fires immediately). -/
theorem throttle_limit_window (limit : Nat) (calls : List Nat)
    (hs : List.Pairwise (· ≤ ·) calls) :
    List.Chain' (fun a b => a + limit ≤ b) (throttleRun limit calls) ∧
    (∀ u ∈ throttleRun limit calls, u ∈ calls) ∧
    (calls ≠ [] → (throttleRun limit calls).head? = calls.head?) ∧
    (∀ u ∈ calls, u ∈ throttleRun limit calls ∨
      ∃ v ∈ throttleRun limit calls, v ≤ u ∧ u < v + limit) := by
  have hinit : ThrInv limit 0 [] ⟨none, []⟩ := by
    refine ⟨by simp, by simp, by simp, by simp, ?_, by simp, by simp⟩
    intro r hr; simp at hr
  obtain ⟨T2, hT2⟩ := throttleRun_fold limit calls 0 [] ⟨none, []⟩ hinit hs
    (fun u _ => Nat.zero_le u)
  obtain ⟨h1, h2, _, _, _, h6, h7⟩ := hT2
  exact ⟨h1, fun u hu => by simpa using h2 u hu,
    fun hne => by simpa using h6 (by simpa using hne),
    fun u hu => by simpa using h7 u (by simpa using hu)⟩

/-- Witness for C7: calls at 0, 50, 100 and 250 ms with `limit` 100 ms
invoke at 0 (first call, immediate), 100 (reset due, immediate) and 250;
the call at 50 ms is inside the first window and dropped. -/
theorem throttle_limit_window_witness :
    throttleRun 100 [0, 50, 100, 250] = [0, 100, 250] ∧
    (∀ u ∈ throttleRun 100 [0, 50, 100, 250], u ∈ [0, 50, 100, 250]) := by
  refine ⟨by decide, ?_⟩
  exact (throttle_limit_window 100 [0, 50, 100, 250] (by simp)).2.1

/-! ## Toasts and makeRequest (main.js lines 261-283, 340-362)

A toast is the visible effect of `showNotification(message, type,
duration)`; the defaulted arguments are `type = "info"` and
`duration = 3000`. `makeRequest` wraps a fetch: its outcome is either a
network error (the fetch promise rejects with some error message) or an
HTTP response with an `ok` flag, a status, and a body already parsed as
JSON (the `response.json()` step). On a non-ok response it throws
`HTTP error! status: <status>`; any error is caught, a generic danger toast
is shown, and the error is rethrown (the returned promise rejects). The
model returns the promise outcome together with the toasts shown before it
settles. -/

structure Toast where
  message : String
  toastType : String
  duration : Nat
deriving DecidableEq, Repr

def requestFailedToast : Toast :=
  { message := "Request failed. Please try again.", toastType := "danger", duration := 3000 }

inductive FetchResult (α : Type) where
  | netError (msg : String)
  | response (ok : Bool) (status : Nat) (body : α)
deriving DecidableEq, Repr

def makeRequest {α : Type} (r : FetchResult α) : Except String α × List Toast :=
  match r with
  | FetchResult.netError msg => (Except.error msg, [requestFailedToast])
  | FetchResult.response ok status body =>
      if ok then (Except.ok body, [])
      else (Except.error ("HTTP error! status: " ++ toString status), [requestFailedToast])

/-- Claim C8: a network failure or a non-ok HTTP response makes the promise
returned by `makeRequest` reject, after showing the generic toast "Request
failed. Please try again." with type danger; an ok response resolves to the
body parsed as JSON, with no toast. -/
theorem makeRequest_failure_toast {α : Type} :
    requestFailedToast =
      { message := "Request failed. Please try again.", toastType := "danger", duration := 3000 } ∧
    ∀ r : FetchResult α,
      (∀ msg, r = FetchResult.netError msg →
        makeRequest r = (Except.error msg, [requestFailedToast])) ∧
      (∀ status body, r = FetchResult.response false status body →
        makeRequest r = (Except.error ("HTTP error! status: " ++ toString status),
          [requestFailedToast])) ∧
      (∀ status body, r = FetchResult.response true status body →
        makeRequest r = (Except.ok body, [])) := by
  refine ⟨rfl, fun r => ⟨?_, ?_, ?_⟩⟩
  · intro msg h; subst h; rfl
  · intro status body h; subst h; rfl
  · intro status body h; subst h; rfl

/-- Witness for C8: the three outcomes at concrete inputs (body type `Nat`). -/
theorem makeRequest_failure_toast_witness :
    makeRequest (FetchResult.netError (α := Nat) "Failed to fetch")
      = (Except.error "Failed to fetch", [requestFailedToast]) ∧
    makeRequest (FetchResult.response false 404 (7 : Nat))
      = (Except.error "HTTP error! status: 404", [requestFailedToast]) ∧
    makeRequest (FetchResult.response true 200 (7 : Nat))
      = (Except.ok 7, []) := by
  refine ⟨((makeRequest_failure_toast (α := Nat)).2 _).1 "Failed to fetch" rfl, ?_, ?_⟩
  · exact (((makeRequest_failure_toast (α := Nat)).2 _).2.1 404 7 rfl).trans rfl
  · exact ((makeRequest_failure_toast (α := Nat)).2 _).2.2 200 7 rfl

/-! ## Clipboard copy (main.js lines 367-403)

`copyToClipboard` uses `navigator.clipboard.writeText` when the clipboard
API exists: on success it shows a success toast; on rejection it falls back
to `fallbackCopyTextToClipboard`, as it also does when the API is absent.
The fallback selects a hidden textarea and runs `document.execCommand`
inside try/catch: it shows the success toast unless `execCommand` throws,
in which case it shows a warning toast. The environment records which of
these browser calls succeed. -/

structure ClipEnv where
  clipboardAvailable : Bool
  clipboardWriteOk : Bool
  execCommandThrows : Bool
deriving DecidableEq, Repr

inductive CopyPath where
  | primary
  | fallback
deriving DecidableEq, Repr

def copiedToast : Toast :=
  { message := "Copied to clipboard!", toastType := "success", duration := 2000 }

def copyFailedToast : Toast :=
  { message := "Copy failed. Please copy manually.", toastType := "warning", duration := 3000 }

def fallbackCopyTextToClipboard (env : ClipEnv) (_text : String) : List Toast :=
  if env.execCommandThrows then [copyFailedToast] else [copiedToast]

def copyToClipboard (env : ClipEnv) (text : String) : CopyPath × List Toast :=
  if env.clipboardAvailable then
    if env.clipboardWriteOk then (CopyPath.primary, [copiedToast])
    else (CopyPath.fallback, fallbackCopyTextToClipboard env text)
  else (CopyPath.fallback, fallbackCopyTextToClipboard env text)

/-- Claim C9: on the primary clipboard-API path a success toast is shown;
when the API is unavailable or its write fails, the legacy selection-based
fallback is used, which shows a success toast when the legacy copy command
succeeds and a warning toast when it fails (total failure). -/
theorem copyToClipboard_paths :
    copiedToast.toastType = "success" ∧
    copyFailedToast.toastType = "warning" ∧
    ∀ (env : ClipEnv) (text : String),
      (env.clipboardAvailable = true → env.clipboardWriteOk = true →
        copyToClipboard env text = (CopyPath.primary, [copiedToast])) ∧
      (env.clipboardAvailable = false ∨ env.clipboardWriteOk = false →
        (copyToClipboard env text).1 = CopyPath.fallback ∧
        (copyToClipboard env text).2 = fallbackCopyTextToClipboard env text) ∧
      (env.execCommandThrows = false →
        fallbackCopyTextToClipboard env text = [copiedToast]) ∧
      (env.execCommandThrows = true →
        fallbackCopyTextToClipboard env text = [copyFailedToast]) := by
  refine ⟨rfl, rfl, fun env text => ⟨?_, ?_, ?_, ?_⟩⟩
  · intro h1 h2; simp [copyToClipboard, h1, h2]
  · rintro (h | h)
    · simp [copyToClipboard, h]
    · rcases ha : env.clipboardAvailable with _ | _ <;>
        simp [copyToClipboard, ha, h]
  · intro h; simp [fallbackCopyTextToClipboard, h]
  · intro h; simp [fallbackCopyTextToClipboard, h]

/-- Witness for C9: concrete environments exercising the primary path, the
fallback after a failed clipboard write, and the warning on total failure. -/
theorem copyToClipboard_paths_witness :
    copyToClipboard ⟨true, true, false⟩ "hello" = (CopyPath.primary, [copiedToast]) ∧
    (copyToClipboard ⟨true, false, false⟩ "hello").2 = [copiedToast] ∧
    (copyToClipboard ⟨false, false, true⟩ "hello").2 = [copyFailedToast] := by
  refine ⟨(copyToClipboard_paths.2.2 ⟨true, true, false⟩ "hello").1 rfl rfl, ?_, ?_⟩
  · have h := (copyToClipboard_paths.2.2 ⟨true, false, false⟩ "hello").2.1 (Or.inr rfl)
    rw [h.2]
    exact (copyToClipboard_paths.2.2 ⟨true, false, false⟩ "hello").2.2.1 rfl
  · have h := (copyToClipboard_paths.2.2 ⟨false, false, true⟩ "hello").2.1 (Or.inl rfl)
    rw [h.2]
    exact (copyToClipboard_paths.2.2 ⟨false, false, true⟩ "hello").2.2.2 rfl

/-! ## Auto-refresh interval (main.js lines 41-53)

For each element with a `data-auto-refresh` attribute, the interval is
`parseInt(element.dataset.autoRefresh) || 30000`: the parsed value when it
is a truthy number, 30000 when `parseInt` yields `NaN` or 0 (an element is
only selected when the attribute exists, so the attribute value is a
string, possibly empty). `parseIntJS` models `parseInt` with no radix
argument: trim leading whitespace, optional sign, a `0x`/`0X` prefix
selecting base 16, then the longest prefix of digits of the base; `none`
models `NaN`. -/

def isJsWhitespace (c : Char) : Bool :=
  c == ' ' || c == '\t' || c == '\n' || c == '\r'

def isHexDigitJS (c : Char) : Bool :=
  c.isDigit || (97 ≤ c.toNat && c.toNat ≤ 102) || (65 ≤ c.toNat && c.toNat ≤ 70)

def hexVal (c : Char) : Nat :=
  if c.isDigit then c.toNat - 48
  else if 97 ≤ c.toNat && c.toNat ≤ 102 then c.toNat - 87
  else c.toNat - 55

def digitsVal (radix : Nat) (ds : List Char) : Nat :=
  ds.foldl (fun a c => a * radix + hexVal c) 0

def parseDigits (radix : Nat) (valid : Char → Bool) (cs : List Char) : Option Nat :=
  let ds := cs.takeWhile valid
  if ds.isEmpty then none else some (digitsVal radix ds)

def parseUnsignedJS : List Char → Option Nat
  | '0' :: 'x' :: rest => parseDigits 16 isHexDigitJS rest
  | '0' :: 'X' :: rest => parseDigits 16 isHexDigitJS rest
  | cs => parseDigits 10 Char.isDigit cs

def parseIntJS (s : String) : Option Int :=
  match s.toList.dropWhile isJsWhitespace with
  | '-' :: rest => (parseUnsignedJS rest).map (fun n => -(n : Int))
  | '+' :: rest => (parseUnsignedJS rest).map (fun n => (n : Int))
  | cs => (parseUnsignedJS cs).map (fun n => (n : Int))

/-- The interval passed to `setInterval` for an element whose
`data-auto-refresh` attribute has value `v` (line 45):
`parseInt(v) || 30000`, where `NaN` and 0 are falsy. -/
def autoRefreshPeriod (v : String) : Int :=
  match parseIntJS v with
  | none => 30000
  | some n => if n = 0 then 30000 else n

/-- Spec-side statement of C10: default 30000 when the value is missing
(empty), non-numeric, or parses to 0; otherwise the parsed integer. -/
def autoRefreshPeriodSpec (v : String) : Int :=
  if parseIntJS v = none ∨ parseIntJS v = some 0 then 30000
  else (parseIntJS v).getD 30000

/-- Claim C10: the interval used by `setupAutoRefresh` is the default 30000
ms exactly when the attribute value is missing (empty), non-numeric, or
parses to 0, and otherwise is the integer `parseInt` extracts, as the
concrete cases illustrate. -/
theorem autoRefreshPeriod_default :
    (∀ v : String, autoRefreshPeriod v = autoRefreshPeriodSpec v) ∧
    autoRefreshPeriod "" = 30000 ∧
    autoRefreshPeriod "abc" = 30000 ∧
    autoRefreshPeriod "0" = 30000 ∧
    autoRefreshPeriod "5000" = 5000 ∧
    autoRefreshPeriod " 15000ms" = 15000 := by
  refine ⟨?_, by decide, by decide, by decide, by decide, by decide⟩
  intro v
  unfold autoRefreshPeriod autoRefreshPeriodSpec
  match h : parseIntJS v with
  | none => simp
  | some n =>
    by_cases hn : n = 0
    · simp [hn]
    · simp [hn]
